import Mathlib

/-!
Verification of the DC-motor PWM driver (drivers/motor/motor.cpp).

The driver is embedded shallowly:
* machine integers become `ℕ` (with an explicit `% 2 ^ 32` where the C code
  can overflow a `uint32_t`);
* `float` quantities (speed, frequency) are modelled as exact rationals `ℚ`,
  and the C `(int32_t)`/`(uint32_t)` casts as truncation toward zero;
* the `while(true)` factoring loop becomes a fuelled iteration together with
  a theorem that the fuel always suffices (the divider at least halves on
  every applied step, and it starts below `2 ^ 32`);
* hardware register writes (`pwm_set_gpio_level`, `pwm_set_wrap`,
  `pwm_set_clkdiv_int_frac`, `pwm_init`, `gpio_set_function`) become an
  explicit event trace, so ordering and absence of writes are provable.
-/

/-- Modelled from the spec: the constant `MAX_PWM_PERIOD` is declared in the
header (not part of the sources here); the spec fixes it to the hardware
wrap-register width, 65535. -/
def MAX_PWM_PERIOD : ℕ := 65535

/-- Modelled from the spec: the header declares `enum DecayMode` with the two
variants `FAST_DECAY` and `SLOW_DECAY`.  The underlying C integer coding is
kept, so that out-of-range mode values can be talked about; `FAST_DECAY` is
coded as 0. -/
def FAST_DECAY : ℕ := 0

/-- Modelled from the spec: the second `DecayMode` variant, coded as 1. -/
def SLOW_DECAY : ℕ := 1

/-- Truncation toward zero of a rational, the behaviour of the C cast from a
floating-point value to a signed integer. -/
def ratTrunc (q : ℚ) : ℤ := if 0 ≤ q then ⌊q⌋ else ⌈q⌉

/-- The `int32_t signed_duty_cycle = (int32_t)(motor_speed * (float)pwm_period)`
computation of `Motor::update_pwm` (motor.cpp line 158). -/
def signedDutyCycle (speed : ℚ) (period : ℕ) : ℤ := ratTrunc (speed * period)

/-- The pair of levels written by `Motor::update_pwm` (motor.cpp lines
160-183): first component is the level of the positive pin, second of the
negative pin.  The `switch` has `case SLOW_DECAY` and `case FAST_DECAY:
default:`, so every mode other than `SLOW_DECAY` takes the fast-decay
branch. -/
def motorLevels (mode : ℕ) (speed : ℚ) (period : ℕ) : ℤ × ℤ :=
  if mode = SLOW_DECAY then
    if 0 ≤ signedDutyCycle speed period then
      ((period : ℤ), (period : ℤ) - signedDutyCycle speed period)
    else
      ((period : ℤ) + signedDutyCycle speed period, (period : ℤ))
  else
    if 0 ≤ signedDutyCycle speed period then
      (signedDutyCycle speed period, 0)
    else
      (0, - signedDutyCycle speed period)

/-- One pass over the prime-factor ladder of `Motor::calculate_pwm_factors`
(motor.cpp lines 130-146): the body of the `while(true)` loop, returning
`none` exactly when the loop hits its `break` branch. -/
def pwmStep (div16 period : ℕ) : Option (ℕ × ℕ) :=
  if 5 * 16 ≤ div16 ∧ div16 % 5 = 0 ∧ period * 5 < MAX_PWM_PERIOD then
    some (div16 / 5, period * 5)
  else if 3 * 16 ≤ div16 ∧ div16 % 3 = 0 ∧ period * 3 < MAX_PWM_PERIOD then
    some (div16 / 3, period * 3)
  else if 2 * 16 ≤ div16 ∧ period * 2 ≤ MAX_PWM_PERIOD then
    some (div16 / 2, period * 2)
  else
    none

/-- The `while(true)` loop of `Motor::calculate_pwm_factors`, iterated with
explicit fuel; `pwmLoopFuel_reaches_fix` below shows the fuel used by
`pwmLoop` always suffices. -/
def pwmLoopFuel : ℕ → ℕ → ℕ → ℕ × ℕ
  | 0, div16, period => (div16, period)
  | fuel + 1, div16, period =>
    match pwmStep div16 period with
    | none => (div16, period)
    | some (d, p) => pwmLoopFuel fuel d p

/-- The factoring loop run to completion.  Each applied step divides `div16`
by at least 2 and the initial divider is below `2 ^ 32 ≤ 2 ^ 64`, so 64
rounds of fuel reach the `break` branch. -/
def pwmLoop (div16 period : ℕ) : ℕ × ℕ := pwmLoopFuel 64 div16 period

/-- The initial divider candidate
`uint32_t div16 = (uint32_t)((float)(source_hz << 4) / freq)` of
`Motor::calculate_pwm_factors` (motor.cpp line 127): the 32-bit shift wraps
modulo `2 ^ 32`, the float division is modelled as exact rational division,
and the cast truncates (the value is nonnegative, so floor). -/
def initialDiv16 (source_hz : ℕ) (freq : ℚ) : ℕ :=
  (⌊((source_hz * 16 % 2 ^ 32 : ℕ) : ℚ) / freq⌋).toNat

/-- `Motor::calculate_pwm_factors` (motor.cpp lines 121-155): returns
`some (period, div16)` on success, `none` on failure.  The frequency-range
guard `freq >= 1.0f && freq <= (float)(source_hz >> 1)` and the final
divider-range guard `div16 >= 16 && div16 < (256 << 4)` are kept verbatim. -/
def calculate_pwm_factors (source_hz : ℕ) (freq : ℚ) : Option (ℕ × ℕ) :=
  if 1 ≤ freq ∧ freq ≤ ((source_hz / 2 : ℕ) : ℚ) then
    if 16 ≤ (pwmLoop (initialDiv16 source_hz freq) 1).1 ∧
        (pwmLoop (initialDiv16 source_hz freq) 1).1 < 256 * 16 then
      some ((pwmLoop (initialDiv16 source_hz freq) 1).2,
            (pwmLoop (initialDiv16 source_hz freq) 1).1)
    else none
  else none

/-- The mutable state of a `Motor` instance (fields of the class, motor.hpp
declarations as used by motor.cpp). -/
structure Motor where
  pin_pos : ℕ
  pin_neg : ℕ
  motor_speed : ℚ
  pwm_frequency : ℚ
  pwm_period : ℕ
  motor_decay_mode : ℕ
deriving DecidableEq

/-- Constructor `Motor::Motor` (motor.cpp lines 6-8).  Modelled from the
spec: the header's default member initial values are not in the sources;
the spec says speed starts at 0 and the period is only derived by `init`,
so it starts at 0 as well.  The mode argument is stored unchecked, as in
the C++ code. -/
def Motor.make (pin_pos pin_neg : ℕ) (freq : ℚ) (mode : ℕ) : Motor :=
  ⟨pin_pos, pin_neg, 0, freq, 0, mode⟩

/-- Hardware register writes emitted by the driver, in program order. -/
inductive Event where
  | setClkdiv : ℕ → ℕ → ℕ → Event
  | setWrap : ℕ → ℕ → Event
  | setLevel : ℕ → ℤ → Event
  | initSlice : ℕ → ℕ → ℕ → Event
  | setFunctionPWM : ℕ → Event
deriving DecidableEq

/-- `Motor::update_pwm` (motor.cpp lines 157-184) as the trace it emits: in
every branch the positive pin's level is written first, then the negative
pin's. -/
def update_pwm (m : Motor) : List Event :=
  [Event.setLevel m.pin_pos (motorLevels m.motor_decay_mode m.motor_speed m.pwm_period).1,
   Event.setLevel m.pin_neg (motorLevels m.motor_decay_mode m.motor_speed m.pwm_period).2]

/-- The divider writes of `Motor::set_frequency` (motor.cpp lines 73-79):
`pwm_set_clkdiv_int_frac` on the positive pin's slice, repeated on the
negative pin's slice only when the slices differ. -/
def clkdivEvents (sliceNum : ℕ → ℕ) (m : Motor) (div16 : ℕ) : List Event :=
  Event.setClkdiv (sliceNum m.pin_pos) (div16 / 16) (div16 % 16) ::
    (if sliceNum m.pin_neg ≠ sliceNum m.pin_pos then
      [Event.setClkdiv (sliceNum m.pin_neg) (div16 / 16) (div16 % 16)]
    else [])

/-- The wrap writes of `Motor::set_frequency` (motor.cpp lines 85-89):
`pwm_set_wrap(slice, pwm_period - 1)`, deduplicated when the pins share a
slice. -/
def wrapEvents (sliceNum : ℕ → ℕ) (m : Motor) (period : ℕ) : List Event :=
  Event.setWrap (sliceNum m.pin_pos) (period - 1) ::
    (if sliceNum m.pin_neg ≠ sliceNum m.pin_pos then
      [Event.setWrap (sliceNum m.pin_neg) (period - 1)]
    else [])

/-- `Motor::set_frequency` (motor.cpp lines 55-98), returning the success
flag, the state after the call and the trace of register writes.  On
quantization failure nothing happens; on success the state is updated
(`pwm_period` and `pwm_frequency` are assigned before any `update_pwm`
call, so levels are computed against the new period), the divider is
written, and the level writes go before the wrap writes exactly when the
new period is larger than the old one (`pre_update_pwm`). -/
def Motor.set_frequency (sliceNum : ℕ → ℕ) (source_hz : ℕ) (m : Motor) (freq : ℚ) :
    Bool × Motor × List Event :=
  match calculate_pwm_factors source_hz freq with
  | none => (false, m, [])
  | some (period, div16) =>
    let pre_update_pwm : Bool := decide (m.pwm_period < period)
    let m' := { m with pwm_period := period, pwm_frequency := freq }
    (true, m',
      clkdivEvents sliceNum m div16 ++
        (if pre_update_pwm then update_pwm m' else []) ++
        wrapEvents sliceNum m period ++
        (if pre_update_pwm then [] else update_pwm m'))

/-- `Motor::init` (motor.cpp lines 15-40): on quantization failure of the
stored frequency nothing happens and `false` is returned; on success both
slices are configured (wrap `period - 1`, divider `div16`, written for each
pin even when the slices alias, as in the source), both pins are switched
to the PWM function, and the initial levels are pushed. -/
def Motor.init (sliceNum : ℕ → ℕ) (source_hz : ℕ) (m : Motor) :
    Bool × Motor × List Event :=
  match calculate_pwm_factors source_hz m.pwm_frequency with
  | none => (false, m, [])
  | some (period, div16) =>
    let m' := { m with pwm_period := period }
    (true, m',
      [Event.initSlice (sliceNum m.pin_pos) (period - 1) div16,
       Event.setFunctionPWM m.pin_pos,
       Event.initSlice (sliceNum m.pin_neg) (period - 1) div16,
       Event.setFunctionPWM m.pin_neg] ++ update_pwm m')

/-! ## Elementary facts about truncation toward zero -/

lemma ratTrunc_nonneg {q : ℚ} (h : 0 ≤ q) : 0 ≤ ratTrunc q := by
  unfold ratTrunc
  rw [if_pos h]
  exact Int.floor_nonneg.mpr h

lemma ratTrunc_nonpos {q : ℚ} (h : q ≤ 0) : ratTrunc q ≤ 0 := by
  unfold ratTrunc
  by_cases h0 : 0 ≤ q
  · rw [if_pos h0]
    have hq : q = 0 := le_antisymm h h0
    simp [hq]
  · rw [if_neg h0]
    exact Int.ceil_le.mpr (by exact_mod_cast h)

lemma ratTrunc_le_of_le {q : ℚ} {n : ℕ} (h : q ≤ n) : ratTrunc q ≤ (n : ℤ) := by
  unfold ratTrunc
  by_cases h0 : 0 ≤ q
  · rw [if_pos h0]
    calc ⌊q⌋ ≤ ⌊(n : ℚ)⌋ := Int.floor_mono h
    _ = (n : ℤ) := Int.floor_natCast n
  · rw [if_neg h0]
    calc ⌈q⌉ ≤ 0 := Int.ceil_le.mpr (by exact_mod_cast le_of_not_le h0)
    _ ≤ (n : ℤ) := Int.ofNat_nonneg n

lemma neg_le_ratTrunc {q : ℚ} {n : ℕ} (h : -(n : ℚ) ≤ q) : -(n : ℤ) ≤ ratTrunc q := by
  unfold ratTrunc
  by_cases h0 : 0 ≤ q
  · rw [if_pos h0]
    calc -(n : ℤ) ≤ 0 := by omega
    _ ≤ ⌊q⌋ := Int.floor_nonneg.mpr h0
  · rw [if_neg h0]
    calc -(n : ℤ) = ⌈-(n : ℚ)⌉ := by rw [Int.ceil_neg, Int.floor_natCast]
    _ ≤ ⌈q⌉ := Int.ceil_mono h

lemma one_le_ratTrunc {q : ℚ} (h : 1 ≤ q) : 1 ≤ ratTrunc q := by
  unfold ratTrunc
  rw [if_pos (le_trans (by norm_num) h)]
  exact Int.le_floor.mpr (by exact_mod_cast h)

lemma ratTrunc_le_neg_one {q : ℚ} (h : q ≤ -1) : ratTrunc q ≤ -1 := by
  unfold ratTrunc
  rw [if_neg (by intro h0; linarith)]
  exact Int.ceil_le.mpr (by exact_mod_cast h)

lemma speed_mul_nonneg {speed : ℚ} (period : ℕ) (h : 0 ≤ speed) :
    0 ≤ speed * (period : ℚ) :=
  mul_nonneg h (by positivity)

lemma speed_mul_nonpos {speed : ℚ} (period : ℕ) (h : speed ≤ 0) :
    speed * (period : ℚ) ≤ 0 := by
  have := mul_le_mul_of_nonneg_right h (show (0 : ℚ) ≤ period by positivity)
  simpa using this

/-! ## Level-mapping theorems -/

lemma signedDutyCycle_nonneg {speed : ℚ} (period : ℕ) (h : 0 ≤ speed) :
    0 ≤ signedDutyCycle speed period :=
  ratTrunc_nonneg (speed_mul_nonneg period h)

lemma signedDutyCycle_nonpos {speed : ℚ} (period : ℕ) (h : speed ≤ 0) :
    signedDutyCycle speed period ≤ 0 :=
  ratTrunc_nonpos (speed_mul_nonpos period h)

/-- C1 (amended): for speed in [-1, 1] the duty cycle is the truncation
toward zero of speed * period, a signed integer in [-period, period], and
the level pairs are exactly the claimed fast- and slow-decay mappings. -/
theorem motor_C1_levels (speed : ℚ) (period : ℕ)
    (h1 : -1 ≤ speed) (h2 : speed ≤ 1) :
    (-(period : ℤ) ≤ signedDutyCycle speed period ∧
      signedDutyCycle speed period ≤ (period : ℤ)) ∧
    motorLevels FAST_DECAY speed period =
      (if 0 ≤ speed then (signedDutyCycle speed period, 0)
       else (0, - signedDutyCycle speed period)) ∧
    motorLevels SLOW_DECAY speed period =
      (if 0 ≤ speed then
        ((period : ℤ), (period : ℤ) - signedDutyCycle speed period)
       else ((period : ℤ) + signedDutyCycle speed period, (period : ℤ))) := by
  have hple : speed * (period : ℚ) ≤ period := by
    calc speed * (period : ℚ) ≤ 1 * period :=
      mul_le_mul_of_nonneg_right h2 (by positivity)
    _ = period := one_mul _
  have hpge : -((period : ℕ) : ℚ) ≤ speed * period := by
    calc -((period : ℕ) : ℚ) = -1 * period := by ring
    _ ≤ speed * period := mul_le_mul_of_nonneg_right h1 (by positivity)
  refine ⟨⟨neg_le_ratTrunc hpge, ratTrunc_le_of_le hple⟩, ?_, ?_⟩
  · by_cases hs : 0 ≤ speed
    · have hd : 0 ≤ signedDutyCycle speed period := signedDutyCycle_nonneg period hs
      simp [motorLevels, FAST_DECAY, SLOW_DECAY, hs, hd]
    · have hd : signedDutyCycle speed period ≤ 0 :=
        signedDutyCycle_nonpos period (le_of_not_le hs)
      rcases lt_or_eq_of_le hd with hlt | heq
      · simp [motorLevels, FAST_DECAY, SLOW_DECAY, hs, not_le.mpr hlt]
      · simp [motorLevels, FAST_DECAY, SLOW_DECAY, hs, heq]
  · by_cases hs : 0 ≤ speed
    · have hd : 0 ≤ signedDutyCycle speed period := signedDutyCycle_nonneg period hs
      simp [motorLevels, SLOW_DECAY, hs, hd]
    · have hd : signedDutyCycle speed period ≤ 0 :=
        signedDutyCycle_nonpos period (le_of_not_le hs)
      rcases lt_or_eq_of_le hd with hlt | heq
      · simp [motorLevels, SLOW_DECAY, hs, not_le.mpr hlt]
      · simp [motorLevels, SLOW_DECAY, hs, heq]

/-- Witness for `motor_C1_levels` at speed 3/4, period 5. -/
theorem motor_C1_levels_w :
    (-((5 : ℕ) : ℤ) ≤ signedDutyCycle (3/4) 5 ∧
      signedDutyCycle (3/4) 5 ≤ ((5 : ℕ) : ℤ)) ∧
    motorLevels FAST_DECAY (3/4) 5 =
      (if (0 : ℚ) ≤ 3/4 then (signedDutyCycle (3/4) 5, 0)
       else (0, - signedDutyCycle (3/4) 5)) ∧
    motorLevels SLOW_DECAY (3/4) 5 =
      (if (0 : ℚ) ≤ 3/4 then
        (((5 : ℕ) : ℤ), ((5 : ℕ) : ℤ) - signedDutyCycle (3/4) 5)
       else (((5 : ℕ) : ℤ) + signedDutyCycle (3/4) 5, ((5 : ℕ) : ℤ))) :=
  motor_C1_levels (3/4) 5 (by norm_num) (by norm_num)

/-- C1 counterexample: at speed 3/4 and period 5 the code's positive level
in fast decay is 3 (truncation of 3.75), not round(3.75) = 4 as the claim
states. -/
theorem motor_C1_cex :
    (0 : ℚ) ≤ 3/4 ∧
    motorLevels FAST_DECAY (3/4) 5 = (3, 0) ∧
    round ((3/4 : ℚ) * 5) = 4 := by
  have hd : signedDutyCycle (3/4) 5 = 3 := by
    unfold signedDutyCycle ratTrunc
    norm_num
  refine ⟨by norm_num, ?_, ?_⟩
  · simp [motorLevels, FAST_DECAY, SLOW_DECAY, hd]
  · norm_num [round_eq]

/-- C2 (amended): in slow decay the two levels always satisfy
positive − negative = dutyCycle, with the larger channel pinned at the full
period, for both signs of the duty cycle. -/
theorem motor_C2_slow_decay_pair (speed : ℚ) (period : ℕ) :
    (motorLevels SLOW_DECAY speed period).1 -
        (motorLevels SLOW_DECAY speed period).2 = signedDutyCycle speed period ∧
    max (motorLevels SLOW_DECAY speed period).1
        (motorLevels SLOW_DECAY speed period).2 = (period : ℤ) := by
  unfold motorLevels
  by_cases hd : 0 ≤ signedDutyCycle speed period
  · rw [if_pos rfl, if_pos hd]
    exact ⟨by ring, max_eq_left (by omega)⟩
  · rw [if_pos rfl, if_neg hd]
    exact ⟨by ring, max_eq_right (by omega)⟩

/-- C2 counterexample: at speed 1/2 and period 100 the slow-decay levels
are (100, 50); their sum is 150, not the period 100 as the claim states. -/
theorem motor_C2_cex :
    (0 : ℚ) ≤ 1/2 ∧
    motorLevels SLOW_DECAY (1/2) 100 = (100, 50) ∧
    (100 : ℤ) + 50 ≠ (100 : ℤ) := by
  have hd : signedDutyCycle (1/2) 100 = 50 := by
    unfold signedDutyCycle ratTrunc
    norm_num
  refine ⟨by norm_num, ?_, by norm_num⟩
  unfold motorLevels
  rw [if_pos rfl, hd]
  norm_num

/-- C9: at speed exactly 0 the level update yields (0, 0) in fast decay and
(period, period) in slow decay, for every period. -/
theorem motor_C9_zero_speed (period : ℕ) :
    motorLevels FAST_DECAY 0 period = (0, 0) ∧
    motorLevels SLOW_DECAY 0 period = ((period : ℤ), (period : ℤ)) := by
  have hd : signedDutyCycle 0 period = 0 := by
    unfold signedDutyCycle ratTrunc
    norm_num
  constructor <;> simp [motorLevels, FAST_DECAY, SLOW_DECAY, hd]

/-- C8 (amended): in fast decay, whenever the magnitude of speed times the
period reaches 1 (so the truncated duty cycle is nonzero), exactly one
channel is nonzero: the positive one for positive speed, the negative one
for negative speed. -/
theorem motor_C8_fast_decay (speed : ℚ) (period : ℕ)
    (h1 : -1 ≤ speed) (h2 : speed ≤ 1) (h3 : 1 ≤ |speed| * period) :
    (0 < speed →
      (motorLevels FAST_DECAY speed period).1 ≠ 0 ∧
        (motorLevels FAST_DECAY speed period).2 = 0) ∧
    (speed < 0 →
      (motorLevels FAST_DECAY speed period).1 = 0 ∧
        (motorLevels FAST_DECAY speed period).2 ≠ 0) := by
  constructor
  · intro hs
    have habs : |speed| = speed := abs_of_pos hs
    have hq : 1 ≤ speed * period := by rw [← habs]; exact h3
    have hd : 1 ≤ signedDutyCycle speed period := one_le_ratTrunc hq
    have hd0 : 0 ≤ signedDutyCycle speed period := by omega
    constructor
    · simp only [motorLevels, FAST_DECAY, SLOW_DECAY, if_neg (by norm_num : ¬(0 : ℕ) = 1),
        if_pos hd0]
      omega
    · simp [motorLevels, FAST_DECAY, SLOW_DECAY, hd0]
  · intro hs
    have habs : |speed| = -speed := abs_of_neg hs
    have hq : speed * period ≤ -1 := by
      have : 1 ≤ -speed * period := by rw [← habs]; exact h3
      nlinarith
    have hd : signedDutyCycle speed period ≤ -1 := ratTrunc_le_neg_one hq
    have hd0 : ¬ 0 ≤ signedDutyCycle speed period := by omega
    constructor
    · simp [motorLevels, FAST_DECAY, SLOW_DECAY, hd0]
    · simp only [motorLevels, FAST_DECAY, SLOW_DECAY, if_neg (by norm_num : ¬(0 : ℕ) = 1),
        if_neg hd0]
      omega

/-- Witness for `motor_C8_fast_decay` at speed 1/2, period 4. -/
theorem motor_C8_fast_decay_w :
    (0 < (1/2 : ℚ) →
      (motorLevels FAST_DECAY (1/2) 4).1 ≠ 0 ∧
        (motorLevels FAST_DECAY (1/2) 4).2 = 0) ∧
    ((1/2 : ℚ) < 0 →
      (motorLevels FAST_DECAY (1/2) 4).1 = 0 ∧
        (motorLevels FAST_DECAY (1/2) 4).2 ≠ 0) :=
  motor_C8_fast_decay (1/2) 4 (by norm_num) (by norm_num)
    (by rw [abs_of_pos (by norm_num : (0 : ℚ) < 1/2)]; norm_num)

/-- C8 counterexample: speed 1/4 is nonzero and the period 2 is at least 1,
yet the fast-decay levels are (0, 0) — the truncated duty cycle vanishes,
so no channel is nonzero, contradicting the claim. -/
theorem motor_C8_cex :
    (1/4 : ℚ) ≠ 0 ∧ (1 : ℕ) ≤ 2 ∧
    motorLevels FAST_DECAY (1/4) 2 = (0, 0) := by
  have hd : signedDutyCycle (1/4) 2 = 0 := by
    unfold signedDutyCycle ratTrunc
    norm_num
  refine ⟨by norm_num, by norm_num, ?_⟩
  unfold motorLevels
  rw [if_neg (by norm_num [FAST_DECAY, SLOW_DECAY]), hd]
  norm_num

/-! ## Decay-mode coding -/

/-- C10 (amended): the decay mode is carried as a plain integer value: the
constructor stores any mode unchecked, and the level update maps every mode
other than SLOW_DECAY — including invalid third values — to the FAST_DECAY
behaviour through the switch's default branch. -/
theorem motor_C10_default_branch (mode pin_pos pin_neg : ℕ) (freq speed : ℚ)
    (period : ℕ) (h : mode ≠ SLOW_DECAY) :
    (Motor.make pin_pos pin_neg freq mode).motor_decay_mode = mode ∧
    motorLevels mode speed period = motorLevels FAST_DECAY speed period := by
  constructor
  · rfl
  · unfold motorLevels
    rw [if_neg h, if_neg (show ¬ FAST_DECAY = SLOW_DECAY by norm_num [FAST_DECAY, SLOW_DECAY])]

/-- Witness for `motor_C10_default_branch` at the invalid mode value 2. -/
theorem motor_C10_default_branch_w :
    (Motor.make 0 2 25000 2).motor_decay_mode = 2 ∧
    motorLevels 2 (1/2) 100 = motorLevels FAST_DECAY (1/2) 100 :=
  motor_C10_default_branch 2 0 2 25000 (1/2) 100 (by norm_num [SLOW_DECAY])

/-- C10 counterexample: the mode value 2 is neither SLOW_DECAY nor
FAST_DECAY, yet construction stores it without error and the level update
silently treats it as FAST_DECAY — the claimed construction-time rejection
and absence of a default branch both fail. -/
theorem motor_C10_cex :
    (2 : ℕ) ≠ SLOW_DECAY ∧ (2 : ℕ) ≠ FAST_DECAY ∧
    (Motor.make 0 2 25000 2).motor_decay_mode = 2 ∧
    motorLevels 2 (3/4) 5 = motorLevels FAST_DECAY (3/4) 5 := by
  refine ⟨by norm_num [SLOW_DECAY], by norm_num [FAST_DECAY], rfl, ?_⟩
  unfold motorLevels
  rw [if_neg (show ¬ (2 : ℕ) = SLOW_DECAY by norm_num [SLOW_DECAY]),
    if_neg (show ¬ FAST_DECAY = SLOW_DECAY by norm_num [FAST_DECAY, SLOW_DECAY])]

/-! ## Quantizer theorems -/

lemma pwmStep_spec {d p d' p' : ℕ} (h : pwmStep d p = some (d', p')) :
    d' < d ∧ 2 * d' ≤ d ∧ p' ≤ MAX_PWM_PERIOD := by
  unfold pwmStep at h
  split_ifs at h with h5 h3 h2
  · obtain ⟨hd, hm, hp⟩ := h5
    simp only [Option.some.injEq, Prod.mk.injEq] at h
    obtain ⟨rfl, rfl⟩ := h
    refine ⟨by omega, by omega, by omega⟩
  · obtain ⟨hd, hm, hp⟩ := h3
    simp only [Option.some.injEq, Prod.mk.injEq] at h
    obtain ⟨rfl, rfl⟩ := h
    refine ⟨by omega, by omega, by omega⟩
  · obtain ⟨hd, hp⟩ := h2
    simp only [Option.some.injEq, Prod.mk.injEq] at h
    obtain ⟨rfl, rfl⟩ := h
    refine ⟨by omega, by omega, by omega⟩

lemma pwmStep_none_small {d : ℕ} (p : ℕ) (h : d < 32) : pwmStep d p = none := by
  unfold pwmStep
  have h5 : ¬ (5 * 16 ≤ d ∧ d % 5 = 0 ∧ p * 5 < MAX_PWM_PERIOD) := by
    rintro ⟨h1, -, -⟩; omega
  have h3 : ¬ (3 * 16 ≤ d ∧ d % 3 = 0 ∧ p * 3 < MAX_PWM_PERIOD) := by
    rintro ⟨h1, -, -⟩; omega
  have h2 : ¬ (2 * 16 ≤ d ∧ p * 2 ≤ MAX_PWM_PERIOD) := by
    rintro ⟨h1, -⟩; omega
  rw [if_neg h5, if_neg h3, if_neg h2]

lemma pwmLoopFuel_reaches_fix (fuel : ℕ) :
    ∀ d p, d < 2 ^ fuel →
      pwmStep (pwmLoopFuel fuel d p).1 (pwmLoopFuel fuel d p).2 = none := by
  induction fuel with
  | zero =>
    intro d p h
    have hd : d = 0 := by omega
    subst hd
    have hrw : pwmLoopFuel 0 0 p = (0, p) := rfl
    rw [hrw]
    exact pwmStep_none_small p (by omega)
  | succ n ih =>
    intro d p h
    cases hs : pwmStep d p with
    | none =>
      simp [pwmLoopFuel, hs]
    | some dp =>
      obtain ⟨d', p'⟩ := dp
      have hspec := pwmStep_spec hs
      have hrw : pwmLoopFuel (n + 1) d p = pwmLoopFuel n d' p' := by
        simp [pwmLoopFuel, hs]
      rw [hrw]
      have hpow : (2 : ℕ) ^ (n + 1) = 2 * 2 ^ n := by ring
      have hd : d < 2 * 2 ^ n := by rw [← hpow]; exact h
      have h2 := hspec.2.1
      exact ih d' p' (by omega)

/-- C4 (amended): in each iteration of the factoring loop a prime from
{5, 3, 2} is applied in that fixed priority order, and only under its
guard: `divider16 ≥ p·16`, `divider16 % p == 0` for p = 5 and p = 3 (no
remainder check for p = 2, which may fire on an odd divider16), and
`period · p` not exceeding MAX_PWM_PERIOD (strictly below it for p = 5 and
p = 3, at most equal for p = 2). -/
theorem motor_C4_step_guards (d p d' p' : ℕ) (h : pwmStep d p = some (d', p')) :
    (d' = d / 5 ∧ p' = p * 5 ∧ 5 * 16 ≤ d ∧ d % 5 = 0 ∧ p * 5 ≤ MAX_PWM_PERIOD) ∨
    (¬ (5 * 16 ≤ d ∧ d % 5 = 0 ∧ p * 5 < MAX_PWM_PERIOD) ∧
      d' = d / 3 ∧ p' = p * 3 ∧ 3 * 16 ≤ d ∧ d % 3 = 0 ∧ p * 3 ≤ MAX_PWM_PERIOD) ∨
    (¬ (5 * 16 ≤ d ∧ d % 5 = 0 ∧ p * 5 < MAX_PWM_PERIOD) ∧
      ¬ (3 * 16 ≤ d ∧ d % 3 = 0 ∧ p * 3 < MAX_PWM_PERIOD) ∧
      d' = d / 2 ∧ p' = p * 2 ∧ 2 * 16 ≤ d ∧ p * 2 ≤ MAX_PWM_PERIOD) := by
  unfold pwmStep at h
  split_ifs at h with h5 h3 h2
  · left
    simp only [Option.some.injEq, Prod.mk.injEq] at h
    exact ⟨h.1.symm, h.2.symm, h5.1, h5.2.1, le_of_lt h5.2.2⟩
  · right; left
    simp only [Option.some.injEq, Prod.mk.injEq] at h
    exact ⟨h5, h.1.symm, h.2.symm, h3.1, h3.2.1, le_of_lt h3.2.2⟩
  · right; right
    simp only [Option.some.injEq, Prod.mk.injEq] at h
    exact ⟨h5, h3, h.1.symm, h.2.symm, h2.1, h2.2⟩

/-- Witness for `motor_C4_step_guards` at the loop state (80000, 1), where
the prime 5 fires. -/
theorem motor_C4_step_guards_w :
    (16000 = 80000 / 5 ∧ 5 = 1 * 5 ∧ 5 * 16 ≤ 80000 ∧ 80000 % 5 = 0 ∧
      1 * 5 ≤ MAX_PWM_PERIOD) ∨
    (¬ (5 * 16 ≤ 80000 ∧ 80000 % 5 = 0 ∧ 1 * 5 < MAX_PWM_PERIOD) ∧
      16000 = 80000 / 3 ∧ 5 = 1 * 3 ∧ 3 * 16 ≤ 80000 ∧ 80000 % 3 = 0 ∧
      1 * 3 ≤ MAX_PWM_PERIOD) ∨
    (¬ (5 * 16 ≤ 80000 ∧ 80000 % 5 = 0 ∧ 1 * 5 < MAX_PWM_PERIOD) ∧
      ¬ (3 * 16 ≤ 80000 ∧ 80000 % 3 = 0 ∧ 1 * 3 < MAX_PWM_PERIOD) ∧
      16000 = 80000 / 2 ∧ 5 = 1 * 2 ∧ 2 * 16 ≤ 80000 ∧ 1 * 2 ≤ MAX_PWM_PERIOD) :=
  motor_C4_step_guards 80000 1 16000 5 (by decide)

/-- C4 counterexample: the odd divider 33 is reachable (it is the initial
divider for the valid request of 2000000000/33 Hz at a 125 MHz clock), and
the p = 2 branch fires on it even though divider16 is not even — refuting
the claim's assertion that divider16 is always even at that point. -/
theorem motor_C4_cex :
    initialDiv16 125000000 (2000000000 / 33) = 33 ∧
    (1 : ℚ) ≤ 2000000000 / 33 ∧
    (2000000000 / 33 : ℚ) ≤ ((125000000 / 2 : ℕ) : ℚ) ∧
    pwmStep 33 1 = some (16, 2) ∧
    33 % 2 = 1 := by
  refine ⟨?_, by norm_num, by norm_num, by decide, by norm_num⟩
  unfold initialDiv16
  norm_num
  rfl

/-- C7: the factoring loop terminates: every applied step strictly reduces
divider16 while keeping the period bounded by MAX_PWM_PERIOD, and from any
32-bit divider the loop reaches its break branch (no step applies to the
final state). -/
theorem motor_C7_loop_terminates (d p d' p' : ℕ) (h : d < 2 ^ 32) :
    (pwmStep d p = some (d', p') → d' < d ∧ p' ≤ MAX_PWM_PERIOD) ∧
    pwmStep (pwmLoop d p).1 (pwmLoop d p).2 = none := by
  constructor
  · intro hs
    exact ⟨(pwmStep_spec hs).1, (pwmStep_spec hs).2.2⟩
  · have h64 : d < 2 ^ 64 := lt_trans h (by norm_num)
    exact pwmLoopFuel_reaches_fix 64 d p h64

/-- Witness for `motor_C7_loop_terminates` at divider 80000, period 1. -/
theorem motor_C7_loop_terminates_w :
    (pwmStep 80000 1 = some (16000, 5) → 16000 < 80000 ∧ 5 ≤ MAX_PWM_PERIOD) ∧
    pwmStep (pwmLoop 80000 1).1 (pwmLoop 80000 1).2 = none :=
  motor_C7_loop_terminates 80000 1 16000 5 (by norm_num)

/-- C5: quantization succeeds, returning exactly the loop's (period,
divider16), if and only if the frequency-range check and the final
divider-range check both pass; it fails if and only if one of them
fails. -/
theorem motor_C5_quantize (source_hz : ℕ) (freq : ℚ) (period div16 : ℕ) :
    (calculate_pwm_factors source_hz freq = some (period, div16) ↔
      ((1 ≤ freq ∧ freq ≤ ((source_hz / 2 : ℕ) : ℚ)) ∧
        pwmLoop (initialDiv16 source_hz freq) 1 = (div16, period) ∧
        16 ≤ div16 ∧ div16 < 256 * 16)) ∧
    (calculate_pwm_factors source_hz freq = none ↔
      (¬ (1 ≤ freq ∧ freq ≤ ((source_hz / 2 : ℕ) : ℚ)) ∨
        ¬ (16 ≤ (pwmLoop (initialDiv16 source_hz freq) 1).1 ∧
          (pwmLoop (initialDiv16 source_hz freq) 1).1 < 256 * 16))) := by
  unfold calculate_pwm_factors
  split_ifs with hr hd
  · constructor
    · simp only [Option.some.injEq, Prod.mk.injEq]
      constructor
      · rintro ⟨hp, hq⟩
        refine ⟨hr, ?_, ?_, ?_⟩
        · rw [← hp, ← hq]
        · rw [← hq]; exact hd.1
        · rw [← hq]; exact hd.2
      · rintro ⟨-, hloop, -, -⟩
        rw [hloop]
        exact ⟨rfl, rfl⟩
    · constructor
      · intro hcontra; exact hcontra.elim
      · rintro (hcontra | hcontra)
        · exact absurd hr hcontra
        · exact absurd hd hcontra
  · constructor
    · constructor
      · intro hcontra; exact hcontra.elim
      · rintro ⟨-, hloop, h16, hlt⟩
        refine absurd ?_ hd
        rw [hloop]
        exact ⟨h16, hlt⟩
    · constructor
      · intro hnone; exact Or.inr hd
      · intro hdisj; rfl
  · constructor
    · constructor
      · intro hcontra; exact hcontra.elim
      · rintro ⟨hone, -, -⟩; exact absurd hone hr
    · constructor
      · intro hnone; exact Or.inl hr
      · intro hdisj; rfl

/-! ## Trace theorems -/

lemma initialDiv16_125_25000 : initialDiv16 125000000 25000 = 80000 := by
  unfold initialDiv16
  norm_num
  rfl

lemma calc_factors_125_25000 :
    calculate_pwm_factors 125000000 25000 = some (5000, 16) := by
  unfold calculate_pwm_factors
  rw [initialDiv16_125_25000]
  rw [if_pos (show (1 : ℚ) ≤ 25000 ∧ (25000 : ℚ) ≤ ((125000000 / 2 : ℕ) : ℚ) by norm_num)]
  rw [if_pos (show 16 ≤ (pwmLoop 80000 1).1 ∧ (pwmLoop 80000 1).1 < 256 * 16 by decide)]
  decide

lemma calc_factors_fail_half :
    calculate_pwm_factors 125000000 (1/2) = none := by
  unfold calculate_pwm_factors
  rw [if_neg (show ¬ ((1 : ℚ) ≤ 1/2 ∧ (1/2 : ℚ) ≤ ((125000000 / 2 : ℕ) : ℚ)) by
    rintro ⟨hone, -⟩; norm_num at hone)]

/-- C6: a failed quantization leaves both set_frequency and init without
any effect: they return false, the whole stored state is unchanged, and no
register write is emitted. -/
theorem motor_C6_failure_no_effect (sliceNum : ℕ → ℕ) (source_hz : ℕ) (m : Motor)
    (freq : ℚ)
    (h1 : calculate_pwm_factors source_hz freq = none)
    (h2 : calculate_pwm_factors source_hz m.pwm_frequency = none) :
    Motor.set_frequency sliceNum source_hz m freq = (false, m, []) ∧
    Motor.init sliceNum source_hz m = (false, m, []) := by
  constructor
  · unfold Motor.set_frequency
    rw [h1]
  · unfold Motor.init
    rw [h2]

/-- Witness for `motor_C6_failure_no_effect`: requesting 0.5 Hz (below the
1 Hz lower bound) at a 125 MHz clock. -/
theorem motor_C6_failure_no_effect_w :
    Motor.set_frequency (fun pin => pin / 2) 125000000
        (Motor.make 0 2 (1/2) FAST_DECAY) (1/2) =
      (false, Motor.make 0 2 (1/2) FAST_DECAY, []) ∧
    Motor.init (fun pin => pin / 2) 125000000 (Motor.make 0 2 (1/2) FAST_DECAY) =
      (false, Motor.make 0 2 (1/2) FAST_DECAY, []) :=
  motor_C6_failure_no_effect (fun pin => pin / 2) 125000000
    (Motor.make 0 2 (1/2) FAST_DECAY) (1/2) calc_factors_fail_half calc_factors_fail_half

/-- C3 (amended): on a successful frequency change the level writes —
computed from the current speed against the new period — are emitted before
the wrap writes when the new period is larger than the old one, and after
them when it is smaller. -/
theorem motor_C3_order (sliceNum : ℕ → ℕ) (source_hz : ℕ) (m : Motor) (freq : ℚ)
    (period div16 : ℕ)
    (h : calculate_pwm_factors source_hz freq = some (period, div16)) :
    (m.pwm_period < period →
      (Motor.set_frequency sliceNum source_hz m freq).2.2 =
        clkdivEvents sliceNum m div16 ++
          update_pwm { m with pwm_period := period, pwm_frequency := freq } ++
          wrapEvents sliceNum m period) ∧
    (period < m.pwm_period →
      (Motor.set_frequency sliceNum source_hz m freq).2.2 =
        clkdivEvents sliceNum m div16 ++ wrapEvents sliceNum m period ++
          update_pwm { m with pwm_period := period, pwm_frequency := freq }) := by
  constructor
  · intro hlt
    unfold Motor.set_frequency
    rw [h]
    simp [hlt, List.append_assoc]
  · intro hlt
    unfold Motor.set_frequency
    rw [h]
    have hn : ¬ (m.pwm_period < period) := by omega
    simp [hn, List.append_assoc]

/-- A concrete motor state for the trace examples: pins 0 and 2 (distinct
slices under pin / 2), full speed 1, stored frequency 100 Hz, period 100,
fast decay. -/
def exampleMotor : Motor := ⟨0, 2, 1, 100, 100, FAST_DECAY⟩

/-- Witness for `motor_C3_order`: changing `exampleMotor` to 25 kHz at a
125 MHz clock quantizes to period 5000, larger than the old period 100. -/
theorem motor_C3_order_w :
    (exampleMotor.pwm_period < 5000 →
      (Motor.set_frequency (fun pin => pin / 2) 125000000 exampleMotor 25000).2.2 =
        clkdivEvents (fun pin => pin / 2) exampleMotor 16 ++
          update_pwm { exampleMotor with pwm_period := 5000, pwm_frequency := 25000 } ++
          wrapEvents (fun pin => pin / 2) exampleMotor 5000) ∧
    (5000 < exampleMotor.pwm_period →
      (Motor.set_frequency (fun pin => pin / 2) 125000000 exampleMotor 25000).2.2 =
        clkdivEvents (fun pin => pin / 2) exampleMotor 16 ++
          wrapEvents (fun pin => pin / 2) exampleMotor 5000 ++
          update_pwm { exampleMotor with pwm_period := 5000, pwm_frequency := 25000 }) :=
  motor_C3_order (fun pin => pin / 2) 125000000 exampleMotor 25000 5000 16
    calc_factors_125_25000

/-- C3 counterexample: changing `exampleMotor` (old period 100, speed 1) to
25 kHz emits the level write 5000 = speed · newPeriod, not the level 100
that the current speed against the old period would give — the claim's
"computed from the current speed against the old period" is false. -/
theorem motor_C3_cex :
    (Motor.set_frequency (fun pin => pin / 2) 125000000 exampleMotor 25000).2.2 =
      [Event.setClkdiv 0 1 0, Event.setClkdiv 1 1 0,
       Event.setLevel 0 5000, Event.setLevel 2 0,
       Event.setWrap 0 4999, Event.setWrap 1 4999] ∧
    motorLevels exampleMotor.motor_decay_mode exampleMotor.motor_speed
        exampleMotor.pwm_period = (100, 0) ∧
    ((100 : ℤ), (0 : ℤ)) ≠ ((5000 : ℤ), (0 : ℤ)) := by
  have hd5000 : signedDutyCycle 1 5000 = 5000 := by
    unfold signedDutyCycle ratTrunc
    norm_num
  have hlev5000 : motorLevels FAST_DECAY 1 5000 = (5000, 0) := by
    unfold motorLevels
    rw [if_neg (show ¬ FAST_DECAY = SLOW_DECAY by norm_num [FAST_DECAY, SLOW_DECAY]), hd5000]
    norm_num
  have hd100 : signedDutyCycle 1 100 = 100 := by
    unfold signedDutyCycle ratTrunc
    norm_num
  have hlev100 : motorLevels FAST_DECAY 1 100 = (100, 0) := by
    unfold motorLevels
    rw [if_neg (show ¬ FAST_DECAY = SLOW_DECAY by norm_num [FAST_DECAY, SLOW_DECAY]), hd100]
    norm_num
  refine ⟨?_, ?_, by decide⟩
  · unfold Motor.set_frequency
    rw [calc_factors_125_25000]
    simp [exampleMotor, clkdivEvents, wrapEvents, update_pwm, hlev5000]
  · exact hlev100
